import Mathlib

/-!
Shallow embedding of the demo-transpilation script
(`docs/scripts/formattedTSDemos.js`) and of the `PickersModalDialog`
component of the pickers package, together with theorems checking the
specification's claims about them.

The file system is modelled as a partial map from path strings to file
entries (content plus `mtimeMs`).  External libraries invoked by the script
(Babel, typescript-to-proptypes, Prettier) and the helper functions
`fixBabelGeneratorIssues` / `fixLineEndings` (required from `./helpers`,
whose source is not part of the inspected files) are uninterpreted
deterministic functions collected in an `Env` structure; the script's own
control flow, cache check, regular-expression test and write are embedded
directly from the source.
-/

/-! ### String utilities (structural, kernel-reducible)

JavaScript's `String.prototype.endsWith`, `String.prototype.includes` and
first-occurrence `String.prototype.replace` on the character list of a
string. -/

/-- Does the list start with the given pattern? -/
def listStartsWith : List Char → List Char → Bool
  | [], _ => true
  | _ :: _, [] => false
  | p :: ps, c :: cs => p == c && listStartsWith ps cs

/-- Does the list contain the pattern as a contiguous sublist? -/
def listContainsSub (pat : List Char) : List Char → Bool
  | [] => listStartsWith pat []
  | c :: cs => listStartsWith pat (c :: cs) || listContainsSub pat cs

/-- Replace the first occurrence of `pat` by `rep`, as JavaScript
`String.prototype.replace` with a string search value does; the list is
returned unchanged when `pat` does not occur. -/
def listReplaceFirst (pat rep : List Char) : List Char → List Char
  | [] => []
  | c :: cs =>
    if listStartsWith pat (c :: cs) then rep ++ (c :: cs).drop pat.length
    else c :: listReplaceFirst pat rep cs

/-- JavaScript `s.endsWith pat`. -/
def strEndsWith (s pat : String) : Bool :=
  listStartsWith pat.data.reverse s.data.reverse

/-- JavaScript `s.includes pat`. -/
def strIncludes (s pat : String) : Bool :=
  listContainsSub pat.data s.data

/-- JavaScript `s.replace pat rep` with a plain-string search value:
only the first occurrence is replaced. -/
def jsReplaceFirst (s pat rep : String) : String :=
  ⟨listReplaceFirst pat.data rep.data s.data⟩

/-! ### The regular expression over the transformed code

`/import \w* from 'prop-types'/.test(code)`: `\w` is `[A-Za-z0-9_]`; since
the literal after `\w*` starts with a space (not a word character), the
regex matches exactly when maximal munch of word characters after
`"import "` is followed by the literal `" from 'prop-types'"`. -/

/-- A word character of the regex class `\w`. -/
def isWordChar (c : Char) : Bool :=
  c.isAlphanum || c == '_'

/-- Drop the maximal run of word characters from the front. -/
def dropWordChars : List Char → List Char
  | [] => []
  | c :: cs => if isWordChar c then dropWordChars cs else c :: cs

/-- Does `/import \w* from 'prop-types'/` match starting at this suffix? -/
def matchesPropTypesAt (cs : List Char) : Bool :=
  listStartsWith "import ".data cs &&
    listStartsWith " from 'prop-types'".data (dropWordChars (cs.drop 7))

/-- Does the regex match anywhere in the list? -/
def hasPropTypesImportAux : List Char → Bool
  | [] => false
  | c :: cs => matchesPropTypesAt (c :: cs) || hasPropTypesImportAux cs

/-- `/import \w* from 'prop-types'/.test code`. -/
def hasPropTypesImport (code : String) : Bool :=
  hasPropTypesImportAux code.data

/-! ### The file-system model for `transpileFile` -/

/-- A regular file: its text content and its modification time, as
`fs.Stats.mtimeMs`. -/
structure FileEntry where
  content : String
  mtimeMs : Int
deriving DecidableEq

/-- A file system: a partial map from absolute path to file entry. -/
def FS : Type := String → Option FileEntry

/-- Writing one file: the entry at `p` is replaced, everything else kept. -/
def writeFS (fs : FS) (p : String) (e : FileEntry) : FS :=
  fun q => if q = p then some e else fs q

/-! ### `TranspileResult` (`formattedTSDemos.js`, lines 66-70) -/

def TranspileResult.Success : Nat := 0

def TranspileResult.Skipped : Nat := 1

def TranspileResult.Failed : Nat := 2

/-- The external, deterministic operations the script calls.  `transform` is
`babel.transformAsync` with the script's fixed `babelConfig`, taking the
`enableJSXPreview` flag, the `filename` option and the source;
`parseFromProgram` and `inject` are from `typescript-to-proptypes` (with the
script's fixed `shouldResolveObject` option); `prettierFormat` is
`prettier.format` with the configuration resolved for the given `.js` path.
`fixBabelGeneratorIssues` and `fixLineEndings` come from `./helpers`, whose
source is not among the inspected files, so they stay uninterpreted;
`fixLineEndings` takes the original source first, as in the script.
`writeMtimeMs` is the modification time stamp a write produces. -/
structure Env where
  AST : Type
  Program : Type
  transform : Bool → String → String → Except String String
  parseFromProgram : String → Program → Except String AST
  inject : AST → String → Except String String
  prettierFormat : String → String → Except String String
  fixBabelGeneratorIssues : String → String
  fixLineEndings : String → String → String
  createProgram : List String → Program
  writeMtimeMs : Int

/-- The body of `transpileFile` after the cache check (lines 83-134 of the
script): read the source, Babel-transform it, reject code that still
pulls in prop-types, inject prop types parsed from the program, Prettier
format, apply the two helper fixes, and Prettier-format once more; the
result is the text written to the `.js` path.  Any thrown error surfaces as
`Except.error`. -/
def transpileBody (env : Env) (program : env.Program) (sourceEntry : Option FileEntry)
    (tsxPath jsPath : String) : Except String String :=
  match sourceEntry with
  | none => Except.error ("ENOENT: no such file or directory, open " ++ tsxPath)
  | some src =>
    match env.transform (!(strIncludes tsxPath "pages/premium-themes")) tsxPath src.content with
    | Except.error e => Except.error e
    | Except.ok code =>
      if hasPropTypesImport code then
        Except.error "TypeScript demo contains prop-types, please remove them"
      else
        match env.parseFromProgram tsxPath program with
        | Except.error e => Except.error e
        | Except.ok propTypesAST =>
          match env.inject propTypesAST code with
          | Except.error e => Except.error e
          | Except.ok codeWithPropTypes =>
            match env.prettierFormat jsPath codeWithPropTypes with
            | Except.error e => Except.error e
            | Except.ok prettified =>
              let formatted := env.fixBabelGeneratorIssues prettified
              let correctedLineEndings := env.fixLineEndings src.content formatted
              env.prettierFormat jsPath correctedLineEndings

/-- The decision part of `transpileFile`: it depends on the file system only
through the entries at the `.tsx` path and at the `.js` path.  The second
component is `some output` exactly when the script reaches the final
`fse.writeFile`, with the text it writes. -/
def transpileCore (env : Env) (program : env.Program) (tsxEntry jsEntry : Option FileEntry)
    (tsxPath jsPath : String) (ignoreCache : Bool) : Nat × Option String :=
  let run : Nat × Option String :=
    match transpileBody env program tsxEntry tsxPath jsPath with
    | Except.ok output => (TranspileResult.Success, some output)
    | Except.error _ => (TranspileResult.Failed, none)
  match ignoreCache, jsEntry with
  | false, some jsStat =>
    match tsxEntry with
    | none => (TranspileResult.Failed, none)
    | some tsxStat =>
      if jsStat.mtimeMs > tsxStat.mtimeMs then (TranspileResult.Skipped, none)
      else run
  | _, _ => run

/-- `transpileFile` (lines 72-139): compute the `.js` path by replacing the
first occurrence of `.tsx`, consult the modification-time cache unless
`ignoreCache`, run the pipeline, and on success write the output to the
`.js` path; any error yields `Failed` with the file system untouched. -/
def transpileFile (env : Env) (program : env.Program) (fs : FS) (tsxPath : String)
    (ignoreCache : Bool) : Nat × FS :=
  let jsPath := jsReplaceFirst tsxPath ".tsx" ".js"
  match transpileCore env program (fs tsxPath) (fs jsPath) tsxPath jsPath ignoreCache with
  | (r, some output) => (r, writeFS fs jsPath ⟨output, env.writeMtimeMs⟩)
  | (r, none) => (r, fs)

/-- Does the cache branch of `transpileFile` return `Skipped`?  Exactly when
the cache is consulted, both files exist and the `.js` file is strictly
newer. -/
def cacheSkips (fs : FS) (tsxPath : String) (ignoreCache : Bool) : Bool :=
  match ignoreCache, fs (jsReplaceFirst tsxPath ".tsx" ".js"), fs tsxPath with
  | false, some jsStat, some tsxStat =>
    if jsStat.mtimeMs > tsxStat.mtimeMs then true else false
  | _, _, _ => false

/-! ### `getFiles` (lines 34-64): recursive traversal with an ENOENT catch

The directory tree is a finite inductive value.  A `bad` node stands for an
entry whose `readdir`/`stat` rejects with the given error message (for a
missing directory, Node's message contains `no such file or directory`).
Each recursive `getFiles` call carries its own `try`/`catch`: an error whose
message contains `no such file or directory` makes that call return `[]`,
any other error is rethrown. -/

/-- The error thrown by a file-system call, as caught by `getFiles`. -/
structure FsError where
  message : String
deriving DecidableEq

mutual
inductive FsNode where
  | file : FsNode
  | bad : String → FsNode
  | dir : FsEntries → FsNode
inductive FsEntries where
  | nil : FsEntries
  | cons : String → FsNode → FsEntries → FsEntries
end

/-- The `ignoreList` of the script (line 12). -/
def ignoreList : List String := ["/pages.ts"]

/-- Modelled restriction of Node's `path.normalize`: on the already-normal
entries of `ignoreList` (here `/pages.ts`) it is the identity. -/
def pathNormalize (p : String) : String := p

/-- The condition under which a regular file is collected (lines 46-50):
the joined path ends with `.tsx` and ends with no normalized entry of
`ignoreList`. -/
def eligibleDemo (p : String) : Bool :=
  strEndsWith p ".tsx" && !(ignoreList.any fun ignorePath => strEndsWith p (pathNormalize ignorePath))

/-- The `try`/`catch` of one `getFiles` call (lines 55-60): an error whose
message contains `no such file or directory` becomes `[]`, any other is
rethrown. -/
def catchEnoent (r : Except FsError (List String)) : Except FsError (List String) :=
  match r with
  | Except.ok l => Except.ok l
  | Except.error e =>
    if strIncludes e.message "no such file or directory" then Except.ok []
    else Except.error e

mutual
/-- Processing of one directory entry at its joined path: `stat`, then
either recurse into a directory (that recursive `getFiles` call catching
ENOENT itself) or collect an eligible file. -/
def getFilesEntry : String → FsNode → Except FsError (List String)
  | _, FsNode.bad msg => Except.error ⟨msg⟩
  | p, FsNode.file => Except.ok (if eligibleDemo p then [p] else [])
  | p, FsNode.dir cs => catchEnoent (getFilesChildren p cs)
/-- Processing of a directory's listing, joining each name onto the root. -/
def getFilesChildren : String → FsEntries → Except FsError (List String)
  | _, FsEntries.nil => Except.ok []
  | root, FsEntries.cons name child rest =>
    match getFilesEntry (root ++ "/" ++ name) child with
    | Except.error e => Except.error e
    | Except.ok here =>
      match getFilesChildren root rest with
      | Except.error e => Except.error e
      | Except.ok more => Except.ok (here ++ more)
end

/-- `getFiles root`: `readdir root` (throwing for a missing or non-directory
root), process the listing, and catch ENOENT at this level. -/
def getFiles (root : String) : FsNode → Except FsError (List String)
  | FsNode.bad msg => catchEnoent (Except.error ⟨msg⟩)
  | FsNode.file => catchEnoent (Except.error ⟨"ENOTDIR: not a directory, scandir " ++ root⟩)
  | FsNode.dir cs => catchEnoent (getFilesChildren root cs)

mutual
/-- All paths of regular files in the tree, each at its joined path. -/
def allFilesNode : String → FsNode → List String
  | p, FsNode.file => [p]
  | _, FsNode.bad _ => []
  | p, FsNode.dir cs => allFilesEntries p cs
/-- All paths of regular files under a listing. -/
def allFilesEntries : String → FsEntries → List String
  | _, FsEntries.nil => []
  | root, FsEntries.cons name child rest =>
    allFilesNode (root ++ "/" ++ name) child ++ allFilesEntries root rest
end

/-! ### `main` (lines 141-204) -/

/-- The batch pass: `transpileFile` on each discovered file (the script
launches them with `Promise.all`; the collected results and the final file
system are modelled by threading the state in list order). -/
def runBatch (env : Env) (program : env.Program) (cacheDisabled : Bool) :
    FS → List String → List Nat × FS
  | fs, [] => ([], fs)
  | fs, p :: ps =>
    let r := transpileFile env program fs p cacheDisabled
    let rest := runBatch env program cacheDisabled r.2 ps
    (r.1 :: rest.1, rest.2)

/-- The `switch` of the summary loop (lines 151-174), including its default
branch, which throws `No handler for …`.  Returns the counters
`(successful, failed, skipped)`. -/
def countResults : List Nat → Except String (Nat × Nat × Nat)
  | [] => Except.ok (0, 0, 0)
  | r :: rs =>
    match countResults rs with
    | Except.error e => Except.error e
    | Except.ok (s, f, k) =>
      if r = TranspileResult.Success then Except.ok (s + 1, f, k)
      else if r = TranspileResult.Failed then Except.ok (s, f + 1, k)
      else if r = TranspileResult.Skipped then Except.ok (s, f, k + 1)
      else Except.error ("No handler for " ++ toString r)

/-- The observable outcome of one `main` run: which files were passed to
`transpileFile`, the three counters, whether the summary was printed, the
exit status (`some 1` for `process.exit(1)`), which files got watchers, and
the final file system. -/
structure MainOutcome where
  processed : List String
  successful : Nat
  failed : Nat
  skipped : Nat
  summaryPrinted : Bool
  exitCode : Option Nat
  watched : List String
  finalFS : FS

/-- The script's `main` (named `mainRun` here since Lean reserves `main`
for an executable entry point): discover `.tsx` files under the two roots, create the program,
transpile every file once, count results (the default switch branch
throwing), print the summary, then either exit (status 1 when something
failed) or register a watcher per file. -/
def mainRun (env : Env) (root1 root2 : String) (tree1 tree2 : FsNode) (fs : FS)
    (watchMode cacheDisabled : Bool) : Except FsError MainOutcome :=
  match getFiles root1 tree1 with
  | Except.error e => Except.error e
  | Except.ok files1 =>
    match getFiles root2 tree2 with
    | Except.error e => Except.error e
    | Except.ok files2 =>
      let tsxFiles := files1 ++ files2
      let program := env.createProgram tsxFiles
      let batch := runBatch env program cacheDisabled fs tsxFiles
      match countResults batch.1 with
      | Except.error e => Except.error ⟨e⟩
      | Except.ok (s, f, k) =>
        Except.ok
          { processed := tsxFiles
            successful := s
            failed := f
            skipped := k
            summaryPrinted := true
            exitCode := if watchMode then none else if f > 0 then some 1 else none
            watched := if watchMode then tsxFiles else []
            finalFS := batch.2 }

/-! ### `PickersModalDialog` (pickers package)

The component is pure slot/prop forwarding.  Component types (`Dialog`,
`Paper`, `Transition` React components) are an abstract type `C`, prop
objects an abstract type `P`.  The rendered element is recorded as the
chosen components and the props forwarded to them; the defaults
`PickersModalDialogRoot` and `Fade` are distinguished constructors so that
they are never confused with a user-supplied component. -/

/-- The capitalized (deprecated `components`) slot object. -/
structure PickersModalDialogSlotsComponent (C : Type) where
  Dialog : Option C := none
  MobilePaper : Option C := none
  MobileTransition : Option C := none

/-- The uncapitalized (`slots`) slot object, `UncapitalizeObjectKeys` of the
former. -/
structure PickersModalDialogSlots (C : Type) where
  dialog : Option C := none
  mobilePaper : Option C := none
  mobileTransition : Option C := none

/-- The `componentsProps` / `slotProps` object. -/
structure PickersModalDialogSlotsComponentsProps (P : Type) where
  dialog : Option P := none
  mobilePaper : Option P := none
  mobileTransition : Option P := none

/-- The props of `PickersModalDialog` (each slot object itself optional,
matching the `?.` accesses). -/
structure PickersModalDialogProps (C P : Type) where
  components : Option (PickersModalDialogSlotsComponent C) := none
  componentsProps : Option (PickersModalDialogSlotsComponentsProps P) := none
  slots : Option (PickersModalDialogSlots C) := none
  slotProps : Option (PickersModalDialogSlotsComponentsProps P) := none
  isOpen : Bool := false

/-- A component position in the rendered output: a consumer-supplied
component or one of the two built-in defaults. -/
inductive ComponentChoice (C : Type) where
  | custom : C → ComponentChoice C
  | pickersModalDialogRoot : ComponentChoice C
  | fade : ComponentChoice C
deriving DecidableEq

/-- What the rendered `<Dialog …>` element receives. -/
structure RenderedModalDialog (C P : Type) where
  dialog : ComponentChoice C
  dialogSpreadProps : Option P
  transitionComponent : ComponentChoice C
  transitionProps : Option P
  paperComponent : Option C
  paperProps : Option P
  isOpen : Bool

/-- The body of `PickersModalDialog`: `slots?.dialog ?? components?.Dialog
?? PickersModalDialogRoot`, `slots?.mobileTransition ??
components?.MobileTransition ?? Fade`, and the prop forwarding of the
returned element, with each `slotProps` entry preferred over the
`componentsProps` one via `??`. -/
def PickersModalDialog (C P : Type) (props : PickersModalDialogProps C P) :
    RenderedModalDialog C P :=
  let DialogChoice : ComponentChoice C :=
    match props.slots.bind (fun s => s.dialog) with
    | some c => ComponentChoice.custom c
    | none =>
      match props.components.bind (fun s => s.Dialog) with
      | some c => ComponentChoice.custom c
      | none => ComponentChoice.pickersModalDialogRoot
  let TransitionChoice : ComponentChoice C :=
    match props.slots.bind (fun s => s.mobileTransition) with
    | some c => ComponentChoice.custom c
    | none =>
      match props.components.bind (fun s => s.MobileTransition) with
      | some c => ComponentChoice.custom c
      | none => ComponentChoice.fade
  { dialog := DialogChoice
    dialogSpreadProps := props.componentsProps.bind (fun s => s.dialog)
    transitionComponent := TransitionChoice
    transitionProps :=
      match props.slotProps.bind (fun s => s.mobileTransition) with
      | some x => some x
      | none => props.componentsProps.bind (fun s => s.mobileTransition)
    paperComponent :=
      match props.slots.bind (fun s => s.mobilePaper) with
      | some c => some c
      | none => props.components.bind (fun s => s.MobilePaper)
    paperProps :=
      match props.slotProps.bind (fun s => s.mobilePaper) with
      | some x => some x
      | none => props.componentsProps.bind (fun s => s.mobilePaper)
    isOpen := props.isOpen }

/-! ### Concrete instances used by witnesses and counterexamples -/

/-- A fully concrete environment in which every external stage is the
identity: enough to run the embedded script on explicit inputs. -/
def envDemo : Env where
  AST := Unit
  Program := Unit
  transform := fun _ _ source => Except.ok source
  parseFromProgram := fun _ _ => Except.ok ()
  inject := fun _ code => Except.ok code
  prettierFormat := fun _ s => Except.ok s
  fixBabelGeneratorIssues := fun s => s
  fixLineEndings := fun _ formatted => formatted
  createProgram := fun _ => ()
  writeMtimeMs := 100

/-- A directory holding the single file `a.tsx.tsx` (a name in which
`.tsx` occurs twice). -/
def treeC2 : FsNode := FsNode.dir (FsEntries.cons "a.tsx.tsx" FsNode.file FsEntries.nil)

/-- The matching flat file system for `treeC2` under `/docs`. -/
def fsC2 : FS := fun p => if p = "/docs/a.tsx.tsx" then some ⟨"x", 1⟩ else none

/-- A `Success` result of `transpileCore` comes from a successful body run,
whose output is the second component. -/
theorem transpileCore_success (env : Env) (program : env.Program)
    (tsxEntry jsEntry : Option FileEntry) (tsxPath jsPath : String) (ic : Bool)
    (h : (transpileCore env program tsxEntry jsEntry tsxPath jsPath ic).1 =
      TranspileResult.Success) :
    ∃ output, transpileBody env program tsxEntry tsxPath jsPath = Except.ok output ∧
      transpileCore env program tsxEntry jsEntry tsxPath jsPath ic =
        (TranspileResult.Success, some output) := by
  unfold transpileCore at h ⊢
  cases hb : transpileBody env program tsxEntry tsxPath jsPath <;>
    cases ic <;> cases jsEntry <;> cases tsxEntry <;>
      simp_all [TranspileResult.Success, TranspileResult.Skipped, TranspileResult.Failed] <;>
        split at h <;> simp_all

/-- C1 counterexample to the claim as stated: the `.tsx` input
`/docs/a.tsx.tsx` has a sibling `.js` file `/docs/a.tsx.js` (trailing
`.tsx` extension replaced by `.js`) that exists and is strictly newer, the
cache is not disabled, and yet `transpileFile` returns `Success`, not
`Skipped`, and changes a file: the cache check looks at the
first-occurrence path `/docs/a.js.tsx`, finds nothing there, and the run
transpiles and writes `/docs/a.js.tsx`. -/
def fsC1cex : FS := fun p =>
  if p = "/docs/a.tsx.tsx" then some ⟨"x", 1⟩
  else if p = "/docs/a.tsx.js" then some ⟨"old", 5⟩
  else none

/-- The C1 counterexample record: the sibling `.js` file exists and is
strictly newer (mtime 5 against 1), yet the run returns `Success` and
writes the file `/docs/a.js.tsx`, which was previously absent. -/
theorem transpileFile_sibling_cache_cex :
    fsC1cex "/docs/a.tsx.js" = some ⟨"old", 5⟩ ∧
    fsC1cex "/docs/a.tsx.tsx" = some ⟨"x", 1⟩ ∧
    ((5 : Int) > (1 : Int)) ∧
    (transpileFile envDemo () fsC1cex "/docs/a.tsx.tsx" false).1 =
      TranspileResult.Success ∧
    fsC1cex "/docs/a.js.tsx" = none ∧
    (transpileFile envDemo () fsC1cex "/docs/a.tsx.tsx" false).2 "/docs/a.js.tsx" =
      some ⟨"x", 100⟩ :=
  ⟨rfl, rfl, by decide, rfl, rfl, rfl⟩

/-- C1 (amended): with the cache enabled, when a file exists at the path
the code computes — the first occurrence of `.tsx` replaced by `.js`, which
is the trailing-extension sibling whenever `.tsx` occurs only at the end of
the path — and its `mtimeMs` is strictly greater than the `.tsx` file's,
`transpileFile` returns `Skipped` and the whole file system is returned
unchanged; the statement holds for every environment, so no read, transform
or write is consulted. -/
theorem transpileFile_cache_skip (env : Env) (program : env.Program) (fs : FS)
    (tsxPath : String) (jsStat tsxStat : FileEntry)
    (hjs : fs (jsReplaceFirst tsxPath ".tsx" ".js") = some jsStat)
    (htsx : fs tsxPath = some tsxStat)
    (hm : jsStat.mtimeMs > tsxStat.mtimeMs) :
    transpileFile env program fs tsxPath false = (TranspileResult.Skipped, fs) := by
  simp only [transpileFile, transpileCore]
  rw [hjs, htsx]
  simp [hm]

/-- The file system of the C1 witness: a demo whose sibling `.js` file is
newer. -/
def fsC1 : FS := fun p =>
  if p = "/d/a.tsx" then some ⟨"x", 1⟩
  else if p = "/d/a.js" then some ⟨"old", 5⟩
  else none

/-- Witness for C1 at a concrete file system. -/
theorem transpileFile_cache_skip_witness :
    transpileFile envDemo () fsC1 "/d/a.tsx" false = (TranspileResult.Skipped, fsC1) :=
  transpileFile_cache_skip envDemo () fsC1 "/d/a.tsx" ⟨"old", 5⟩ ⟨"x", 1⟩ rfl rfl (by decide)

/-- C2 counterexample: the file `/docs/a.tsx.tsx` is selected by `getFiles`
(it ends with `.tsx`), yet a successful `transpileFile` run writes to
`/docs/a.js.tsx` (first occurrence of `.tsx` replaced) and not to the
sibling path `/docs/a.tsx.js` obtained by replacing the trailing
extension. -/
theorem transpileFile_trailing_replace_cex :
    getFiles "/docs" treeC2 = Except.ok ["/docs/a.tsx.tsx"] ∧
    (transpileFile envDemo () fsC2 "/docs/a.tsx.tsx" false).1 = TranspileResult.Success ∧
    (transpileFile envDemo () fsC2 "/docs/a.tsx.tsx" false).2 "/docs/a.js.tsx" =
      some ⟨"x", 100⟩ ∧
    (transpileFile envDemo () fsC2 "/docs/a.tsx.tsx" false).2 "/docs/a.tsx.js" = none :=
  ⟨rfl, rfl, rfl, rfl⟩

/-- C2 (amended): a successful run writes its output to the path obtained
by replacing the first occurrence of `.tsx` in the input path by `.js`, and
leaves every other path unchanged. -/
theorem transpileFile_writes_first_occurrence (env : Env) (program : env.Program)
    (fs : FS) (tsxPath : String) (ic : Bool)
    (h : (transpileFile env program fs tsxPath ic).1 = TranspileResult.Success) :
    ∃ output : String,
      (transpileFile env program fs tsxPath ic).2 (jsReplaceFirst tsxPath ".tsx" ".js") =
        some ⟨output, env.writeMtimeMs⟩ ∧
      ∀ q, q ≠ jsReplaceFirst tsxPath ".tsx" ".js" →
        (transpileFile env program fs tsxPath ic).2 q = fs q := by
  have hcore := transpileCore_success env program (fs tsxPath)
    (fs (jsReplaceFirst tsxPath ".tsx" ".js")) tsxPath (jsReplaceFirst tsxPath ".tsx" ".js") ic
  simp only [transpileFile] at h ⊢
  generalize hco : transpileCore env program (fs tsxPath) (fs (jsReplaceFirst tsxPath ".tsx" ".js"))
      tsxPath (jsReplaceFirst tsxPath ".tsx" ".js") ic = c at h ⊢
  rw [hco] at hcore
  obtain ⟨r, o⟩ := c
  cases o with
  | none =>
    obtain ⟨output, -, hceq⟩ := hcore (by simpa using h)
    simp at hceq
  | some output =>
    exact ⟨output, by simp [writeFS], fun q hq => by simp [writeFS, hq]⟩

/-- A file system holding just the demo `/d/p.tsx`. -/
def fsC3 : FS := fun p => if p = "/d/p.tsx" then some ⟨"x", 1⟩ else none

/-- Witness for the amended C2 at a concrete successful run. -/
theorem transpileFile_writes_first_occurrence_witness :
    ∃ output : String,
      (transpileFile envDemo () fsC3 "/d/p.tsx" true).2 (jsReplaceFirst "/d/p.tsx" ".tsx" ".js") =
        some ⟨output, envDemo.writeMtimeMs⟩ ∧
      ∀ q, q ≠ jsReplaceFirst "/d/p.tsx" ".tsx" ".js" →
        (transpileFile envDemo () fsC3 "/d/p.tsx" true).2 q = fsC3 q :=
  transpileFile_writes_first_occurrence envDemo () fsC3 "/d/p.tsx" true rfl

/-- Inversion of a successful `transpileBody` run: each stage succeeded, in
pipeline order, and the output is the second Prettier pass over the
line-ending-corrected, generator-fixed first pass over the injected code. -/
theorem transpileBody_ok (env : Env) (program : env.Program)
    (sourceEntry : Option FileEntry) (tsxPath jsPath : String) (output : String)
    (h : transpileBody env program sourceEntry tsxPath jsPath = Except.ok output) :
    ∃ src code propTypesAST codeWithPropTypes prettified,
      sourceEntry = some src ∧
      env.transform (!(strIncludes tsxPath "pages/premium-themes")) tsxPath src.content =
        Except.ok code ∧
      hasPropTypesImport code = false ∧
      env.parseFromProgram tsxPath program = Except.ok propTypesAST ∧
      env.inject propTypesAST code = Except.ok codeWithPropTypes ∧
      env.prettierFormat jsPath codeWithPropTypes = Except.ok prettified ∧
      env.prettierFormat jsPath
          (env.fixLineEndings src.content (env.fixBabelGeneratorIssues prettified)) =
        Except.ok output := by
  unfold transpileBody at h
  cases hsrc : sourceEntry with
  | none => rw [hsrc] at h; exact absurd h (by simp)
  | some src =>
    rw [hsrc] at h
    simp only [] at h
    cases htr : env.transform (!(strIncludes tsxPath "pages/premium-themes")) tsxPath
        src.content with
    | error e => rw [htr] at h; exact absurd h (by simp)
    | ok code =>
      rw [htr] at h
      simp only [] at h
      cases hpt : hasPropTypesImport code with
      | true => rw [hpt] at h; simp at h
      | false =>
        rw [hpt] at h
        simp only [Bool.false_eq_true, if_false] at h
        cases hpp : env.parseFromProgram tsxPath program with
        | error e => rw [hpp] at h; exact absurd h (by simp)
        | ok propTypesAST =>
          rw [hpp] at h
          simp only [] at h
          cases hin : env.inject propTypesAST code with
          | error e => rw [hin] at h; exact absurd h (by simp)
          | ok codeWithPropTypes =>
            rw [hin] at h
            simp only [] at h
            cases hpf : env.prettierFormat jsPath codeWithPropTypes with
            | error e => rw [hpf] at h; exact absurd h (by simp)
            | ok prettified =>
              rw [hpf] at h
              simp only [] at h
              exact ⟨src, code, propTypesAST, codeWithPropTypes, prettified,
                rfl, htr, hpt, rfl, hin, hpf, h⟩

/-- C3: a run of `transpileFile` that returns `Success` read the source,
Babel-transformed it, passed the prop-types check, injected the prop types
parsed from the program, Prettier-formatted, applied the two helper fixes
and the second Prettier pass, in this order, and wrote exactly that final
text to the `.js` path. -/
theorem transpileFile_success_pipeline (env : Env) (program : env.Program)
    (fs : FS) (tsxPath : String) (ic : Bool)
    (h : (transpileFile env program fs tsxPath ic).1 = TranspileResult.Success) :
    ∃ src code propTypesAST codeWithPropTypes prettified output,
      fs tsxPath = some src ∧
      env.transform (!(strIncludes tsxPath "pages/premium-themes")) tsxPath src.content =
        Except.ok code ∧
      hasPropTypesImport code = false ∧
      env.parseFromProgram tsxPath program = Except.ok propTypesAST ∧
      env.inject propTypesAST code = Except.ok codeWithPropTypes ∧
      env.prettierFormat (jsReplaceFirst tsxPath ".tsx" ".js") codeWithPropTypes =
        Except.ok prettified ∧
      env.prettierFormat (jsReplaceFirst tsxPath ".tsx" ".js")
          (env.fixLineEndings src.content (env.fixBabelGeneratorIssues prettified)) =
        Except.ok output ∧
      (transpileFile env program fs tsxPath ic).2 =
        writeFS fs (jsReplaceFirst tsxPath ".tsx" ".js") ⟨output, env.writeMtimeMs⟩ := by
  have hcore := transpileCore_success env program (fs tsxPath)
    (fs (jsReplaceFirst tsxPath ".tsx" ".js")) tsxPath (jsReplaceFirst tsxPath ".tsx" ".js") ic
  simp only [transpileFile] at h ⊢
  generalize hco : transpileCore env program (fs tsxPath) (fs (jsReplaceFirst tsxPath ".tsx" ".js"))
      tsxPath (jsReplaceFirst tsxPath ".tsx" ".js") ic = c at h ⊢
  rw [hco] at hcore
  obtain ⟨r, o⟩ := c
  cases o with
  | none =>
    obtain ⟨output, -, hceq⟩ := hcore (by simpa using h)
    simp at hceq
  | some output =>
    obtain ⟨output2, hbody, hceq⟩ := hcore (by simpa using h)
    have ho : output = output2 := by
      have := congrArg Prod.snd hceq
      simpa using this
    subst ho
    obtain ⟨src, code, propTypesAST, codeWithPropTypes, prettified, h1, h2, h3, h4, h5, h6, h7⟩ :=
      transpileBody_ok env program (fs tsxPath) tsxPath (jsReplaceFirst tsxPath ".tsx" ".js")
        output hbody
    exact ⟨src, code, propTypesAST, codeWithPropTypes, prettified, output,
      h1, h2, h3, h4, h5, h6, h7, rfl⟩

/-- Witness for C3 at a concrete successful run of the identity
environment. -/
theorem transpileFile_success_pipeline_witness :
    ∃ src code propTypesAST codeWithPropTypes prettified output,
      fsC3 "/d/p.tsx" = some src ∧
      envDemo.transform (!(strIncludes "/d/p.tsx" "pages/premium-themes")) "/d/p.tsx"
          src.content = Except.ok code ∧
      hasPropTypesImport code = false ∧
      envDemo.parseFromProgram "/d/p.tsx" () = Except.ok propTypesAST ∧
      envDemo.inject propTypesAST code = Except.ok codeWithPropTypes ∧
      envDemo.prettierFormat (jsReplaceFirst "/d/p.tsx" ".tsx" ".js") codeWithPropTypes =
        Except.ok prettified ∧
      envDemo.prettierFormat (jsReplaceFirst "/d/p.tsx" ".tsx" ".js")
          (envDemo.fixLineEndings src.content (envDemo.fixBabelGeneratorIssues prettified)) =
        Except.ok output ∧
      (transpileFile envDemo () fsC3 "/d/p.tsx" true).2 =
        writeFS fsC3 (jsReplaceFirst "/d/p.tsx" ".tsx" ".js") ⟨output, envDemo.writeMtimeMs⟩ :=
  transpileFile_success_pipeline envDemo () fsC3 "/d/p.tsx" true rfl

/-- C5: `transpileFile` is deterministic and reads only the `.tsx` entry and
the `.js` entry: two file systems agreeing on those two paths yield the same
result code and the same final entries at both paths. -/
theorem transpileFile_deterministic (env : Env) (program : env.Program)
    (fs1 fs2 : FS) (tsxPath : String) (ic : Bool)
    (h1 : fs1 tsxPath = fs2 tsxPath)
    (h2 : fs1 (jsReplaceFirst tsxPath ".tsx" ".js") =
      fs2 (jsReplaceFirst tsxPath ".tsx" ".js")) :
    (transpileFile env program fs1 tsxPath ic).1 = (transpileFile env program fs2 tsxPath ic).1 ∧
    (transpileFile env program fs1 tsxPath ic).2 tsxPath =
      (transpileFile env program fs2 tsxPath ic).2 tsxPath ∧
    (transpileFile env program fs1 tsxPath ic).2 (jsReplaceFirst tsxPath ".tsx" ".js") =
      (transpileFile env program fs2 tsxPath ic).2 (jsReplaceFirst tsxPath ".tsx" ".js") := by
  simp only [transpileFile]
  rw [h1, h2]
  rcases transpileCore env program (fs2 tsxPath) (fs2 (jsReplaceFirst tsxPath ".tsx" ".js"))
      tsxPath (jsReplaceFirst tsxPath ".tsx" ".js") ic with ⟨r, o⟩
  cases o with
  | none => exact ⟨rfl, h1, h2⟩
  | some output =>
    refine ⟨rfl, ?_, ?_⟩
    · unfold writeFS
      dsimp only
      split
      · rfl
      · exact h1
    · unfold writeFS
      dsimp only
      split
      · rfl
      · exact h2

/-- A second file system for the C5 witness: it agrees with `fsC1` on the
demo and its sibling but differs elsewhere. -/
def fsC5 : FS := fun p => if p = "/other.txt" then some ⟨"z", 9⟩ else fsC1 p

/-- Witness for C5: the two agreeing file systems produce the same result. -/
theorem transpileFile_deterministic_witness :
    (transpileFile envDemo () fsC1 "/d/a.tsx" false).1 =
      (transpileFile envDemo () fsC5 "/d/a.tsx" false).1 ∧
    (transpileFile envDemo () fsC1 "/d/a.tsx" false).2 "/d/a.tsx" =
      (transpileFile envDemo () fsC5 "/d/a.tsx" false).2 "/d/a.tsx" ∧
    (transpileFile envDemo () fsC1 "/d/a.tsx" false).2 (jsReplaceFirst "/d/a.tsx" ".tsx" ".js") =
      (transpileFile envDemo () fsC5 "/d/a.tsx" false).2 (jsReplaceFirst "/d/a.tsx" ".tsx" ".js") :=
  transpileFile_deterministic envDemo () fsC1 fsC5 "/d/a.tsx" false rfl rfl

/-- C8 counterexample to the claim as stated: the Babel-transformed code of
`/d/b.tsx` (the identity transform of its content) matches the prop-types
pattern, yet `transpileFile` returns `Skipped`, not `Failed`,
because the sibling `.js` file is newer and the cache short-circuits before
the transform. -/
def fsC8 : FS := fun p =>
  if p = "/d/b.tsx" then some ⟨"import PropTypes from 'prop-types';", 1⟩
  else if p = "/d/b.js" then some ⟨"old", 5⟩
  else none

/-- The C8 counterexample record. -/
theorem transpileFile_propTypes_skip_cex :
    envDemo.transform (!(strIncludes "/d/b.tsx" "pages/premium-themes")) "/d/b.tsx"
        "import PropTypes from 'prop-types';" =
      Except.ok "import PropTypes from 'prop-types';" ∧
    hasPropTypesImport "import PropTypes from 'prop-types';" = true ∧
    (transpileFile envDemo () fsC8 "/d/b.tsx" false).1 = TranspileResult.Skipped :=
  ⟨rfl, rfl, rfl⟩

/-- C8 (amended): whenever the modification-time cache does not skip the
file, a Babel output matching `/import \w* from 'prop-types'/` makes
`transpileFile` return `Failed` with the file system unchanged: the `.js`
sibling is not written. -/
theorem transpileFile_propTypes_failed (env : Env) (program : env.Program)
    (fs : FS) (tsxPath : String) (ic : Bool) (src : FileEntry) (code : String)
    (hsrc : fs tsxPath = some src)
    (hcode : env.transform (!(strIncludes tsxPath "pages/premium-themes")) tsxPath
      src.content = Except.ok code)
    (hpt : hasPropTypesImport code = true)
    (hnoskip : cacheSkips fs tsxPath ic = false) :
    transpileFile env program fs tsxPath ic = (TranspileResult.Failed, fs) := by
  have hbody : transpileBody env program (fs tsxPath) tsxPath
      (jsReplaceFirst tsxPath ".tsx" ".js") =
      Except.error "TypeScript demo contains prop-types, please remove them" := by
    unfold transpileBody
    rw [hsrc]
    simp only []
    rw [hcode]
    simp only []
    rw [hpt]
    simp
  unfold cacheSkips at hnoskip
  simp only [transpileFile, transpileCore, hbody]
  cases ic with
  | true => rfl
  | false =>
    cases hjs : fs (jsReplaceFirst tsxPath ".tsx" ".js") with
    | none => rfl
    | some jsStat =>
      rw [hjs] at hnoskip
      rw [hsrc] at hnoskip ⊢
      simp only [] at hnoskip ⊢
      by_cases hm : jsStat.mtimeMs > src.mtimeMs
      · rw [if_pos hm] at hnoskip; exact absurd hnoskip (by simp)
      · simp [hm]

/-- The file system of the C8 witness: the prop-types demo with no sibling
`.js` file, so the cache cannot skip. -/
def fsC8w : FS := fun p =>
  if p = "/d/c.tsx" then some ⟨"import PropTypes from 'prop-types';", 1⟩ else none

/-- Witness for the amended C8 at a concrete run. -/
theorem transpileFile_propTypes_failed_witness :
    transpileFile envDemo () fsC8w "/d/c.tsx" false = (TranspileResult.Failed, fsC8w) :=
  transpileFile_propTypes_failed envDemo () fsC8w "/d/c.tsx" false
    ⟨"import PropTypes from 'prop-types';", 1⟩ "import PropTypes from 'prop-types';"
    rfl rfl rfl rfl

/-- An eligible path ends with `.tsx` and with no entry of the ignore
list. -/
theorem eligibleDemo_spec (p : String) (h : eligibleDemo p = true) :
    strEndsWith p ".tsx" = true ∧ strEndsWith p "/pages.ts" = false := by
  unfold eligibleDemo ignoreList pathNormalize at h
  simp at h
  exact ⟨h.1, h.2⟩

mutual
/-- Soundness of one entry's processing: every collected path is eligible
and is a file of the subtree. -/
theorem getFilesEntry_sound (p : String) (n : FsNode) :
    ∀ l q, getFilesEntry p n = Except.ok l → q ∈ l →
      eligibleDemo q = true ∧ q ∈ allFilesNode p n :=
  match n with
  | FsNode.bad msg => by
    intro l q h hq
    simp [getFilesEntry] at h
  | FsNode.file => by
    intro l q h hq
    simp only [getFilesEntry, Except.ok.injEq] at h
    by_cases he : eligibleDemo p
    · rw [if_pos he] at h
      subst h
      simp at hq
      subst hq
      exact ⟨he, by simp [allFilesNode]⟩
    · rw [if_neg he] at h
      subst h
      simp at hq
  | FsNode.dir cs => by
    intro l q h hq
    simp only [getFilesEntry, catchEnoent] at h
    cases hc : getFilesChildren p cs with
    | ok l2 =>
      rw [hc] at h
      simp only [Except.ok.injEq] at h
      subst h
      have := getFilesChildren_sound p cs l2 q hc hq
      exact ⟨this.1, by simpa [allFilesNode] using this.2⟩
    | error e =>
      rw [hc] at h
      simp only [] at h
      split at h
      · simp only [Except.ok.injEq] at h
        subst h
        simp at hq
      · simp at h

/-- Soundness of a listing's processing. -/
theorem getFilesChildren_sound (root : String) (cs : FsEntries) :
    ∀ l q, getFilesChildren root cs = Except.ok l → q ∈ l →
      eligibleDemo q = true ∧ q ∈ allFilesEntries root cs :=
  match cs with
  | FsEntries.nil => by
    intro l q h hq
    simp only [getFilesChildren, Except.ok.injEq] at h
    subst h
    simp at hq
  | FsEntries.cons name child rest => by
    intro l q h hq
    simp only [getFilesChildren] at h
    cases h1 : getFilesEntry (root ++ "/" ++ name) child with
    | error e => rw [h1] at h; simp at h
    | ok here =>
      rw [h1] at h
      simp only [] at h
      cases h2 : getFilesChildren root rest with
      | error e => rw [h2] at h; simp at h
      | ok more =>
        rw [h2] at h
        simp only [Except.ok.injEq] at h
        subst h
        rcases List.mem_append.mp hq with hq1 | hq2
        · have := getFilesEntry_sound (root ++ "/" ++ name) child here q h1 hq1
          exact ⟨this.1, by simp [allFilesEntries]; exact Or.inl this.2⟩
        · have := getFilesChildren_sound root rest more q h2 hq2
          exact ⟨this.1, by simp [allFilesEntries]; exact Or.inr this.2⟩
end

/-- C4: every path returned by `getFiles` ends with `.tsx`, ends with no
normalized entry of `ignoreList` (in particular not with `/pages.ts`), and
is a regular file found by the recursive traversal of the root's tree. -/
theorem getFiles_sound (root : String) (t : FsNode) (l : List String) (p : String)
    (h : getFiles root t = Except.ok l) (hp : p ∈ l) :
    strEndsWith p ".tsx" = true ∧ strEndsWith p "/pages.ts" = false ∧
    eligibleDemo p = true ∧ p ∈ allFilesNode root t := by
  have key : eligibleDemo p = true ∧ p ∈ allFilesNode root t := by
    cases t with
    | bad msg =>
      simp only [getFiles, catchEnoent] at h
      split at h
      · simp only [Except.ok.injEq] at h; subst h; simp at hp
      · simp at h
    | file =>
      simp only [getFiles, catchEnoent] at h
      split at h
      · simp only [Except.ok.injEq] at h; subst h; simp at hp
      · simp at h
    | dir cs =>
      simp only [getFiles, catchEnoent] at h
      cases hc : getFilesChildren root cs with
      | ok l2 =>
        rw [hc] at h
        simp only [Except.ok.injEq] at h
        subst h
        have := getFilesChildren_sound root cs l2 p hc hp
        exact ⟨this.1, by simpa [allFilesNode] using this.2⟩
      | error e =>
        rw [hc] at h
        simp only [] at h
        split at h
        · simp only [Except.ok.injEq] at h; subst h; simp at hp
        · simp at h
  exact ⟨(eligibleDemo_spec p key.1).1, (eligibleDemo_spec p key.1).2, key.1, key.2⟩

/-- A small tree exercising traversal, extension filtering and the ignore
list: a nested directory with a `.tsx` demo, a `.ts` file and a `pages.ts`
file. -/
def treeC4 : FsNode :=
  FsNode.dir (FsEntries.cons "sub"
    (FsNode.dir (FsEntries.cons "Demo.tsx" FsNode.file
      (FsEntries.cons "pages.ts" FsNode.file FsEntries.nil)))
    (FsEntries.cons "notes.txt" FsNode.file FsEntries.nil))

/-- Witness for C4 on `treeC4`. -/
theorem getFiles_sound_witness :
    strEndsWith "/r/sub/Demo.tsx" ".tsx" = true ∧
    strEndsWith "/r/sub/Demo.tsx" "/pages.ts" = false ∧
    eligibleDemo "/r/sub/Demo.tsx" = true ∧
    "/r/sub/Demo.tsx" ∈ allFilesNode "/r" treeC4 :=
  getFiles_sound "/r" treeC4 ["/r/sub/Demo.tsx"] "/r/sub/Demo.tsx" rfl (by simp)

/-- C9: a `getFiles` error whose message contains `no such file or
directory` (a missing root, or a missing directory inside the tree) yields
the empty list; any other error is propagated.  Stated for a failing root
and for a failing entry one level down. -/
theorem getFiles_enoent (root name msg : String) :
    (getFiles root (FsNode.bad msg) =
      if strIncludes msg "no such file or directory" then Except.ok []
      else Except.error ⟨msg⟩) ∧
    (getFiles root (FsNode.dir (FsEntries.cons name (FsNode.bad msg) FsEntries.nil)) =
      if strIncludes msg "no such file or directory" then Except.ok []
      else Except.error ⟨msg⟩) := by
  constructor <;>
    by_cases h : strIncludes msg "no such file or directory" <;>
      simp [getFiles, getFilesChildren, getFilesEntry, catchEnoent, h]

/-- The result code of `transpileCore` is one of the three
`TranspileResult` values. -/
theorem transpileCore_range (env : Env) (program : env.Program)
    (tsxEntry jsEntry : Option FileEntry) (tsxPath jsPath : String) (ic : Bool) :
    (transpileCore env program tsxEntry jsEntry tsxPath jsPath ic).1 =
        TranspileResult.Success ∨
    (transpileCore env program tsxEntry jsEntry tsxPath jsPath ic).1 =
        TranspileResult.Skipped ∨
    (transpileCore env program tsxEntry jsEntry tsxPath jsPath ic).1 =
        TranspileResult.Failed := by
  unfold transpileCore
  cases hb : transpileBody env program tsxEntry tsxPath jsPath <;>
    cases ic <;> cases jsEntry <;> cases tsxEntry <;>
      simp_all <;> split <;> simp

/-- The result code of `transpileFile` is one of the three values. -/
theorem transpileFile_range (env : Env) (program : env.Program) (fs : FS)
    (tsxPath : String) (ic : Bool) :
    (transpileFile env program fs tsxPath ic).1 = TranspileResult.Success ∨
    (transpileFile env program fs tsxPath ic).1 = TranspileResult.Skipped ∨
    (transpileFile env program fs tsxPath ic).1 = TranspileResult.Failed := by
  have := transpileCore_range env program (fs tsxPath)
    (fs (jsReplaceFirst tsxPath ".tsx" ".js")) tsxPath (jsReplaceFirst tsxPath ".tsx" ".js") ic
  simp only [transpileFile]
  rcases hco : transpileCore env program (fs tsxPath) (fs (jsReplaceFirst tsxPath ".tsx" ".js"))
      tsxPath (jsReplaceFirst tsxPath ".tsx" ".js") ic with ⟨r, o⟩
  rw [hco] at this
  cases o <;> simpa using this

/-- Counting a batch never reaches the default switch branch and sums to
the number of files. -/
theorem countResults_runBatch (env : Env) (program : env.Program) (cd : Bool) :
    ∀ (files : List String) (fs : FS),
      ∃ s f k, countResults (runBatch env program cd fs files).1 = Except.ok (s, f, k) ∧
        s + f + k = files.length
  | [], fs => ⟨0, 0, 0, by simp [runBatch, countResults], rfl⟩
  | p :: ps, fs => by
    obtain ⟨s, f, k, hc, hsum⟩ :=
      countResults_runBatch env program cd ps (transpileFile env program fs p cd).2
    simp only [runBatch, countResults, hc]
    rcases transpileFile_range env program fs p cd with hr | hr | hr <;> rw [hr]
    · exact ⟨s + 1, f, k,
        by simp [TranspileResult.Success, TranspileResult.Skipped, TranspileResult.Failed],
        by simp only [List.length_cons]; omega⟩
    · exact ⟨s, f, k + 1,
        by simp [TranspileResult.Success, TranspileResult.Skipped, TranspileResult.Failed],
        by simp only [List.length_cons]; omega⟩
    · exact ⟨s, f + 1, k,
        by simp [TranspileResult.Success, TranspileResult.Skipped, TranspileResult.Failed],
        by simp only [List.length_cons]; omega⟩

/-- Every result in a batch is one of the three `TranspileResult`
values. -/
theorem runBatch_results_range (env : Env) (program : env.Program) (cd : Bool) :
    ∀ (files : List String) (fs : FS) (r : Nat),
      r ∈ (runBatch env program cd fs files).1 →
      r = TranspileResult.Success ∨ r = TranspileResult.Skipped ∨ r = TranspileResult.Failed
  | [], fs, r => by simp [runBatch]
  | p :: ps, fs, r => by
    intro hr
    simp only [runBatch, List.mem_cons] at hr
    rcases hr with hr | hr
    · subst hr; exact transpileFile_range env program fs p cd
    · exact runBatch_results_range env program cd ps _ r hr

/-- C10: `transpileFile` only ever returns `Success` (0), `Skipped` (1) or
`Failed` (2), so the `switch` over a batch's results never reaches its
throwing default branch and the three counters sum to the number of
files. -/
theorem transpileFile_switch_total (env : Env) (program : env.Program) (cd : Bool)
    (fs : FS) (files : List String) :
    (∀ r ∈ (runBatch env program cd fs files).1,
        r = TranspileResult.Success ∨ r = TranspileResult.Skipped ∨
          r = TranspileResult.Failed) ∧
    ∃ s f k, countResults (runBatch env program cd fs files).1 = Except.ok (s, f, k) ∧
      s + f + k = files.length :=
  ⟨fun r hr => runBatch_results_range env program cd files fs r hr,
   countResults_runBatch env program cd files fs⟩

/-- C6: without `--watch`, `mainRun` processes exactly the discovered files
(each once, in discovery order), prints the summary, registers no watcher,
and exits with status 1 exactly when at least one file failed. -/
theorem mainRun_no_watch (env : Env) (root1 root2 : String) (tree1 tree2 : FsNode)
    (fs : FS) (cd : Bool) (l1 l2 : List String)
    (h1 : getFiles root1 tree1 = Except.ok l1)
    (h2 : getFiles root2 tree2 = Except.ok l2) :
    ∃ out : MainOutcome,
      mainRun env root1 root2 tree1 tree2 fs false cd = Except.ok out ∧
      out.processed = l1 ++ l2 ∧
      out.watched = [] ∧
      out.summaryPrinted = true ∧
      out.successful + out.failed + out.skipped = (l1 ++ l2).length ∧
      out.exitCode = (if out.failed > 0 then some 1 else none) := by
  obtain ⟨s, f, k, hc, hsum⟩ :=
    countResults_runBatch env (env.createProgram (l1 ++ l2)) cd (l1 ++ l2) fs
  simp only [mainRun, h1, h2, hc]
  exact ⟨_, rfl, rfl, rfl, rfl, by simpa using hsum, rfl⟩

/-- The flat file system matching `treeC4` under `/r`. -/
def fsC6 : FS := fun p => if p = "/r/sub/Demo.tsx" then some ⟨"x", 1⟩ else none

/-- An empty second root for the C6 witness. -/
def treeEmpty : FsNode := FsNode.dir FsEntries.nil

/-- Witness for C6 at a concrete batch. -/
theorem mainRun_no_watch_witness :
    ∃ out : MainOutcome,
      mainRun envDemo "/r" "/e" treeC4 treeEmpty fsC6 false false = Except.ok out ∧
      out.processed = ["/r/sub/Demo.tsx"] ++ [] ∧
      out.watched = [] ∧
      out.summaryPrinted = true ∧
      out.successful + out.failed + out.skipped = (["/r/sub/Demo.tsx"] ++ []).length ∧
      out.exitCode = (if out.failed > 0 then some 1 else none) :=
  mainRun_no_watch envDemo "/r" "/e" treeC4 treeEmpty fsC6 false
    ["/r/sub/Demo.tsx"] [] rfl rfl

/-- C7: `PickersModalDialog` is pure slot/prop forwarding: the dialog
component is `slots.dialog` when provided, else `components.Dialog`, else
the default root; the transition is `slots.mobileTransition`, else
`components.MobileTransition`, else `Fade`; and the transition and paper
props from `slotProps` take precedence over the `componentsProps`
entries. -/
theorem PickersModalDialog_forwarding (C P : Type) (props : PickersModalDialogProps C P) :
    ((∀ c, props.slots.bind (fun s => s.dialog) = some c →
        (PickersModalDialog C P props).dialog = ComponentChoice.custom c) ∧
     (∀ c, props.slots.bind (fun s => s.dialog) = none →
        props.components.bind (fun s => s.Dialog) = some c →
        (PickersModalDialog C P props).dialog = ComponentChoice.custom c) ∧
     (props.slots.bind (fun s => s.dialog) = none →
        props.components.bind (fun s => s.Dialog) = none →
        (PickersModalDialog C P props).dialog = ComponentChoice.pickersModalDialogRoot)) ∧
    ((∀ c, props.slots.bind (fun s => s.mobileTransition) = some c →
        (PickersModalDialog C P props).transitionComponent = ComponentChoice.custom c) ∧
     (∀ c, props.slots.bind (fun s => s.mobileTransition) = none →
        props.components.bind (fun s => s.MobileTransition) = some c →
        (PickersModalDialog C P props).transitionComponent = ComponentChoice.custom c) ∧
     (props.slots.bind (fun s => s.mobileTransition) = none →
        props.components.bind (fun s => s.MobileTransition) = none →
        (PickersModalDialog C P props).transitionComponent = ComponentChoice.fade)) ∧
    ((∀ x, props.slotProps.bind (fun s => s.mobileTransition) = some x →
        (PickersModalDialog C P props).transitionProps = some x) ∧
     (props.slotProps.bind (fun s => s.mobileTransition) = none →
        (PickersModalDialog C P props).transitionProps =
          props.componentsProps.bind (fun s => s.mobileTransition))) ∧
    ((∀ x, props.slotProps.bind (fun s => s.mobilePaper) = some x →
        (PickersModalDialog C P props).paperProps = some x) ∧
     (props.slotProps.bind (fun s => s.mobilePaper) = none →
        (PickersModalDialog C P props).paperProps =
          props.componentsProps.bind (fun s => s.mobilePaper))) := by
  refine ⟨⟨?_, ?_, ?_⟩, ⟨?_, ?_, ?_⟩, ⟨?_, ?_⟩, ⟨?_, ?_⟩⟩
  · intro c h
    simp only [PickersModalDialog]
    rw [h]
  · intro c h h2
    simp only [PickersModalDialog]
    rw [h, h2]
  · intro h h2
    simp only [PickersModalDialog]
    rw [h, h2]
  · intro c h
    simp only [PickersModalDialog]
    rw [h]
  · intro c h h2
    simp only [PickersModalDialog]
    rw [h, h2]
  · intro h h2
    simp only [PickersModalDialog]
    rw [h, h2]
  · intro x h
    simp only [PickersModalDialog]
    rw [h]
  · intro h
    simp only [PickersModalDialog]
    rw [h]
  · intro x h
    simp only [PickersModalDialog]
    rw [h]
  · intro h
    simp only [PickersModalDialog]
    rw [h]
